import Mathlib

/-!
Verification development for the calorie-chatbot core
(`app/core/nlp_engine.py`, `app/services/food_search.py`,
`app/services/calorie_calculator.py`, `app/models/schemas.py`).

Text is modelled as `List Char` so every operation is a computable,
kernel-evaluable function.  Rational numbers stand in for Python floats
(all arithmetic in the verified paths is exact).  The rapidfuzz
`fuzz.WRatio` scorer used by `process.extract` is an external library
collaborator and is passed in as an explicit scorer parameter; the
`fuzz.ratio` scorer used by spelling correction is embedded directly
(normalised indel similarity, i.e. an LCS-based ratio).
-/

namespace CalChat

/- Core `Rat` arithmetic is marked irreducible, which prevents concrete
evaluation inside proofs; restore the default reducibility for this
development (all our rational arithmetic is evaluated by `decide`). -/
attribute [local semireducible] Rat.mul Rat.inv Rat.add Rat.sub

/-! ### Python-style string primitives over `List Char` -/

def isWs (c : Char) : Bool :=
  c = ' ' || c = '\t' || c = '\n' || c = '\r'

/-- Python `str.lower()` restricted to ASCII letters (sufficient for the
corpora and queries considered; non-ASCII characters pass through). -/
def pyLower (s : List Char) : List Char :=
  s.map Char.toLower

/-- Python `str.strip()`. -/
def pyStrip (s : List Char) : List Char :=
  ((s.dropWhile isWs).reverse.dropWhile isWs).reverse

/-- One step of whitespace splitting (used via `foldr`). -/
def wsStep (c : Char) (acc : List (List Char)) : List (List Char) :=
  match acc with
  | [] => if isWs c then [] else [[c]]
  | w :: ws => if isWs c then [] :: w :: ws else (c :: w) :: ws

/-- Python `str.split()` (split on whitespace runs, no empty tokens). -/
def pySplitWs (s : List Char) : List (List Char) :=
  (s.foldr wsStep [[]]).filter (fun w => !w.isEmpty)

/-- `' '.join(ws)`. -/
def joinSpace (ws : List (List Char)) : List Char :=
  match ws with
  | [] => []
  | w :: rest => w ++ (rest.foldr (fun x acc => ' ' :: x ++ acc) [])

/-- Python `needle in haystack` (substring containment). -/
def strIn : List Char → List Char → Bool
  | needle, [] => needle.isEmpty
  | needle, c :: rest => needle.isPrefixOf (c :: rest) || strIn needle rest

/-- Fuel-driven helper for `str.replace` (leftmost, non-overlapping). -/
def replaceAux : Nat → List Char → List Char → List Char → List Char
  | 0, s, _, _ => s
  | _ + 1, [], _, _ => []
  | n + 1, c :: rest, pat, rep =>
    if pat.isPrefixOf (c :: rest) then
      rep ++ replaceAux n ((c :: rest).drop pat.length) pat rep
    else
      c :: replaceAux n rest pat rep

/-- Python `s.replace(pat, rep)` for a non-empty pattern. -/
def pyReplace (s pat rep : List Char) : List Char :=
  if pat.isEmpty then s else replaceAux s.length s pat rep

/-- Fuel-driven helper for `str.split(sep)`: accumulates the current piece. -/
def splitOnAux : Nat → List Char → List Char → List Char → List (List Char)
  | 0, s, _, cur => [cur.reverse ++ s]
  | _ + 1, [], _, cur => [cur.reverse]
  | n + 1, c :: rest, sep, cur =>
    if sep.isPrefixOf (c :: rest) then
      (cur.reverse) :: splitOnAux n ((c :: rest).drop sep.length) sep []
    else
      splitOnAux n rest sep (c :: cur)

/-- Python `s.split(sep)` for a non-empty separator. -/
def pySplitOn (s sep : List Char) : List (List Char) :=
  if sep.isEmpty then [s] else splitOnAux s.length s sep []

/-- Fuel-driven helper for `s.split(sep, 1)`: everything after the first
occurrence, or `none` when the separator does not occur. -/
def splitFirstAux : Nat → List Char → List Char → Option (List Char)
  | 0, _, _ => none
  | _ + 1, [], _ => none
  | n + 1, c :: rest, sep =>
    if sep.isPrefixOf (c :: rest) then
      some ((c :: rest).drop sep.length)
    else
      splitFirstAux n rest sep

/-- The part of `s` after the first occurrence of `sep`, if any. -/
def afterFirst (s sep : List Char) : Option (List Char) :=
  splitFirstAux s.length s sep

/-- Python `s.strip(chars)` for an explicit character set. -/
def stripChars (cs : List Char) (s : List Char) : List Char :=
  ((s.dropWhile (fun c => c ∈ cs)).reverse.dropWhile (fun c => c ∈ cs)).reverse

def isDigitCh (c : Char) : Bool :=
  '0' ≤ c && c ≤ '9'

def isAlphaCh (c : Char) : Bool :=
  ('a' ≤ c && c ≤ 'z') || ('A' ≤ c && c ≤ 'Z')

/-- Regex word character (`\w`): ASCII letter, digit or underscore. -/
def isWordCh (c : Char) : Bool :=
  isAlphaCh c || isDigitCh c || c = '_'

def toUpperCh (c : Char) : Char :=
  c.toUpper

/-- Helper for Python `str.title()` tracking whether the previous
character was alphabetic. -/
def titleAux : Bool → List Char → List Char
  | _, [] => []
  | prevAlpha, c :: rest =>
    if isAlphaCh c then
      (if prevAlpha then c.toLower else toUpperCh c) :: titleAux true rest
    else
      c :: titleAux false rest

/-- Python `str.title()` (ASCII). -/
def pyTitle (s : List Char) : List Char :=
  titleAux false s

/-- Numeric value of a digit run. -/
def digitsVal (s : List Char) : Nat :=
  s.foldl (fun acc c => acc * 10 + (c.toNat - '0'.toNat)) 0

/-! Longest common subsequence, computed row by row so that it is cheap
for the kernel to evaluate (needed by the embedded `fuzz.ratio`). -/

/-- Inner loop of one LCS dynamic-programming row update.  `prev` is the
tail of the previous row, `diag` the cell up-left of the current one and
`left` the cell just computed. -/
def lcsRowGo (a : Char) : List Char → List Nat → Nat → Nat → List Nat
  | [], _, _, _ => []
  | _ :: _, [], _, _ => []
  | bc :: brest, up :: prest, diag, left =>
    let cell := if a = bc then diag + 1 else max up left
    cell :: lcsRowGo a brest prest up cell

/-- One LCS row update: `prev` has length `|b| + 1` (cells for every
prefix of `b`); the result is the row after consuming character `a`. -/
def lcsRow (a : Char) (b : List Char) (prev : List Nat) : List Nat :=
  match prev with
  | [] => []
  | p0 :: prest => 0 :: lcsRowGo a b prest p0 0

/-- Length of the longest common subsequence of `x` and `y`. -/
def lcs (x y : List Char) : Nat :=
  (x.foldl (fun row a => lcsRow a y row) (List.replicate (y.length + 1) 0)).getLast?.getD 0

/-- rapidfuzz `fuzz.ratio`: normalised indel similarity on a 0–100 scale,
`100 * (1 - indel(x,y) / (|x| + |y|)) = 200 * lcs(x,y) / (|x| + |y|)`. -/
def fuzzRatio (x y : List Char) : ℚ :=
  if x.isEmpty && y.isEmpty then 100
  else (200 * (lcs x y : ℚ)) / ((x.length : ℚ) + (y.length : ℚ))

/-! Stable descending sort by score (Python `list.sort(key=..., reverse=True)`
is stable: elements with equal scores keep their original order). -/

def insertDesc {α : Type} (score : α → ℚ) (x : α) : List α → List α
  | [] => [x]
  | y :: ys => if score y ≤ score x then x :: y :: ys else y :: insertDesc score x ys

def sortDesc {α : Type} (score : α → ℚ) : List α → List α
  | [] => []
  | x :: xs => insertDesc score x (sortDesc score xs)

/-- Python `min` on two floats (kept as an explicit conditional so that
proofs can evaluate it). -/
def ratMin (a b : ℚ) : ℚ := if a ≤ b then a else b

/-- Python `max` on two floats. -/
def ratMax (a b : ℚ) : ℚ := if a ≤ b then b else a

/-! ### Data model (`app/models/schemas.py`) -/

/-- `schemas.Intent`. -/
inductive Intent where
  | query_food
  | modify_remove
  | modify_add
  | modify_quantity
  | provide_ingredients
  | greeting
  | help
  | unknown
deriving DecidableEq

/-- `schemas.Ingredient`. -/
structure Ingredient where
  usda_fdc_id : Nat
  name : List Char
  weight_g : ℚ
  calories : ℚ
deriving DecidableEq

/-- The `modifications` dictionary `{"remove": [...], "add": [...]}`. -/
structure Mods where
  remove : List (List Char)
  add : List (List Char)
deriving DecidableEq

/-- The `quantities` dictionary with optional `_weight` / `_multiplier`. -/
structure Quantities where
  weight : Option ℚ
  multiplier : Option ℚ
deriving DecidableEq

/-- `schemas.ParsedQuery` with exactly the fields the pydantic model
declares (note: there is no `confidence` field in `schemas.py`). -/
structure ParsedQuery where
  intent : Intent
  food_items : List (List Char)
  modifications : Mods
  quantities : Quantities
  language_detected : List Char
  original_text : List Char
  normalized_text : List Char
deriving DecidableEq

/-- The declared field names of the pydantic `ParsedQuery` model,
in declaration order (`schemas.py` lines 68–75).  A pydantic `BaseModel`
constructor silently drops keyword arguments that are not declared
fields, so this list is what the produced object can carry. -/
def parsedQueryFieldNames : List (List Char) :=
  ["intent".data, "food_items".data, "modifications".data, "quantities".data,
   "language_detected".data, "original_text".data, "normalized_text".data]

/-- `schemas.CalorieResult`. -/
structure CalorieResult where
  food_name : List Char
  original_query : List Char
  total_calories : ℚ
  weight_g : ℚ
  ingredients : List Ingredient
  modifications : List (List Char)
  source : List Char
  confidence : ℚ
  is_approximate : Bool
  country : List Char
deriving DecidableEq

/-! ### NLP engine (`app/core/nlp_engine.py`) -/

/-- `NLPEngine._build_food_vocabulary`, in dict insertion order. -/
def foodVocabulary : List (List Char × List (List Char)) :=
  [("shawarma".data, ["shawerma".data, "shawrma".data, "sha2arma".data, "shawerma".data, "shwarma".data, "shawarmaa".data]),
   ("falafel".data, ["falafil".data, "felafel".data, "flafel".data, "falefel".data]),
   ("kabsa".data, ["kabseh".data, "kabsah".data, "kapsa".data, "kabseh".data]),
   ("kushari".data, ["koshary".data, "koshari".data, "kushari".data, "kosheri".data]),
   ("fajita".data, ["fahita".data, "fajitas".data, "fajetas".data]),
   ("biryani".data, ["biriani".data, "biryanii".data, "briyani".data]),
   ("hummus".data, ["humus".data, "hommus".data, "houmous".data]),
   ("tabouleh".data, ["tabbouleh".data, "tabouli".data, "tabbouli".data]),
   ("kibbeh".data, ["kibbe".data, "kebbeh".data, "kebeh".data]),
   ("chicken".data, ["chiken".data, "chickin".data, "chikn".data, "chcken".data]),
   ("rice".data, ["rize".data, "riice".data]),
   ("tomato".data, ["tomatoe".data, "tomatos".data]),
   ("potato".data, ["potatoe".data, "potatos".data, "pototo".data]),
   ("onion".data, ["onian".data, "onoin".data]),
   ("garlic".data, ["garlik".data, "garlick".data]),
   ("bread".data, ["bred".data, "berad".data]),
   ("cheese".data, ["chees".data, "cheez".data, "chese".data]),
   ("yogurt".data, ["yoghurt".data, "yogourt".data, "yoghourt".data]),
   ("cucumber".data, ["cucmber".data, "cucumbr".data]),
   ("lettuce".data, ["letuce".data, "lettuse".data]),
   ("apple".data, ["aple".data, "appel".data]),
   ("banana".data, ["bananna".data, "bannana".data]),
   ("orange".data, ["orang".data, "orenge".data])]

/-- `_has_arabic_script`: any character in the Arabic Unicode block
U+0600–U+06FF. -/
def hasArabicScript (t : List Char) : Bool :=
  t.any (fun c => 0x600 ≤ c.toNat && c.toNat ≤ 0x6FF)

/-- Presence of a Latin letter (`[a-zA-Z]`). -/
def hasLatinLetter (t : List Char) : Bool :=
  t.any isAlphaCh

/-- Presence of a Franco marker digit: the code's regex is `[2357]`. -/
def hasFrancoDigit (t : List Char) : Bool :=
  t.any (fun c => c = '2' || c = '3' || c = '5' || c = '7')

/-- `_is_franco_arabic`. -/
def isFrancoArabic (t : List Char) : Bool :=
  hasLatinLetter t && hasFrancoDigit t

/-- `_detect_language`. -/
def detectLanguage (t : List Char) : List Char :=
  if hasArabicScript t then "arabic".data
  else if isFrancoArabic t then "franco".data
  else "english".data

/-- The external translation collaborator: absent, or a function that can
fail (a raised exception is modelled as `Except.error`). -/
def Translator : Type := Option (List Char → Except (List Char) (List Char))

/-- The Franco digit-to-letter table, in dict insertion order. -/
def francoPairs : List (List Char × List Char) :=
  [(['2'], "aa".data), (['3'], "aa".data), (['5'], "kh".data), (['6'], ['t']),
   (['7'], ['h']), (['8'], "gh".data), (['9'], ['q'])]

def applyFranco (s : List Char) : List Char :=
  francoPairs.foldl (fun r pr => pyReplace r pr.1 pr.2) s

/-- `_normalize_text`. -/
def normalizeText (tr : Translator) (text : List Char) (hasAr : Bool) : List Char :=
  let result := pyStrip text
  let result :=
    if hasAr then
      match tr with
      | some f =>
        match f result with
        | Except.ok t => if !t.isEmpty then t else result
        | Except.error _ => result
      | none => result
    else result
  let result := pyLower result
  let result :=
    if isFrancoArabic text ||
        (result.contains '2' || result.contains '3' || result.contains '5' ||
         result.contains '7' || result.contains '8') then
      applyFranco result
    else result
  pyStrip (joinSpace (pySplitWs result))

/-- Inner loop of `_correct_spelling`: scan the variation list, keeping
the best fuzzy score above 90. -/
def varScan (word key : List Char) : List (List Char) → (List Char × ℚ) → (List Char × ℚ)
  | [], st => st
  | v :: vs, st =>
    let s := fuzzRatio word v
    if 90 < s ∧ st.2 < s then varScan word key vs (key, s)
    else varScan word key vs st

/-- Outer loop of `_correct_spelling`: scan the vocabulary in order;
an exact canonical or variant hit wins immediately, otherwise fuzzy
scores above 80 (canonical) / 90 (variants) compete. -/
def vocabScan (word : List Char) : List (List Char × List (List Char)) → (List Char × ℚ) → List Char
  | [], st => st.1
  | (key, vars) :: rest, st =>
    if word = key then key
    else if vars.contains word then key
    else
      let s := fuzzRatio word key
      let st1 := if 80 < s ∧ st.2 < s then (key, s) else st
      vocabScan word rest (varScan word key vars st1)

def correctWord (word : List Char) : List Char :=
  vocabScan word foodVocabulary (word, 0)

/-- `_correct_spelling` (the spell checker is always initialised). -/
def correctSpelling (text : List Char) : List Char :=
  joinSpace ((pySplitWs (pyLower (pyStrip text))).map correctWord)

def greetingWords : List (List Char) :=
  ["hi".data, "hello".data, "hey".data, "good morning".data, "good evening".data,
   "marhaba".data, "ahlan".data, "salam".data]

def helpWords : List (List Char) :=
  ["help".data, "how do".data, "how to".data, "what can".data]

def removeWords : List (List Char) :=
  ["without".data, "remove".data, "no ".data, "except".data, "minus".data,
   "exclude".data, "hold the".data, "bala".data, "bidun".data, "bidoun".data]

def addWords : List (List Char) :=
  ["extra".data, "add ".data, "plus".data, "include".data, "with ".data]

/-- `_classify_intent`. -/
def classifyIntent (text : List Char) : Intent :=
  let tl := pyLower text
  if greetingWords.any (fun g => pyStrip tl = g || (g ++ [' ']).isPrefixOf tl) then
    Intent.greeting
  else if helpWords.any (fun w => strIn w tl) then Intent.help
  else if removeWords.any (fun w => strIn w tl) then Intent.modify_remove
  else if addWords.any (fun w => strIn w tl) then Intent.modify_add
  else Intent.query_food

def questionPatterns : List (List Char) :=
  ["how many cal in".data, "how many calories in".data, "how many calories".data,
   "what are the calories".data, "calories in".data, "calories of".data,
   "calories for".data, "calorie count".data, "what is".data, "tell me about".data,
   "i want".data, "i need".data, "give me".data, "can i have".data, "please".data,
   "thanks".data, "thank you".data]

def modificationPatterns : List (List Char) :=
  [" without ".data, " bala ".data, " bidun ".data, " bidoun ".data,
   " with ".data, " plus ".data, " add ".data, " extra ".data,
   " remove ".data, " minus ".data, " no ".data]

def removePhrases : List (List Char) :=
  ["how many calories in".data, "how many calories".data, "what are the calories".data,
   "calories in".data, "calories of".data, "calories for".data, "calorie count".data,
   "what is".data, "tell me about".data, "i want".data, "i need".data, "give me".data,
   "can i have".data, "please".data, "thanks".data, "thank you".data,
   "the ".data, "a ".data, "an ".data]

def standaloneCalWords : List (List Char) :=
  ["calories".data, "calorie".data, "kcal".data, "cal".data]

/-- `_clean_food_name`. -/
def cleanFoodName (text : List Char) : List Char :=
  let r := pyLower text
  let r := removePhrases.foldl (fun acc p => pyReplace acc p [' ']) r
  let ws := (pySplitWs r).filter (fun w => !standaloneCalWords.contains w)
  pyStrip (joinSpace ws)

/-- The modification-pattern loop inside `_extract_food_items`: pattern
present (with sentinel spaces) and a non-empty cleaned left-hand side
returns that side; otherwise the scan continues. -/
def modPatLoop (tl : List Char) : List (List Char) → Option (List Char)
  | [] => none
  | p :: ps =>
    if strIn p ([' '] ++ tl ++ [' ']) then
      let foodPart := cleanFoodName (pyStrip ((pySplitOn tl (pyStrip p)).headD []))
      if !foodPart.isEmpty then some foodPart else modPatLoop tl ps
    else modPatLoop tl ps

def skipWordsMeaningful : List (List Char) :=
  ["the".data, "a".data, "an".data, "in".data, "of".data, "for".data,
   "calories".data, "calorie".data, "kcal".data, "cal".data,
   "how".data, "many".data, "much".data]

/-- The `cleaned` value of `_extract_food_items` after the
meaningful-word fallback. -/
def chooseCleaned (tl : List Char) : List Char :=
  let cleaned := cleanFoodName tl
  if cleaned.isEmpty then
    let meaningful := (pySplitWs tl).filter
      (fun w => !skipWordsMeaningful.contains w && 2 < w.length)
    if !meaningful.isEmpty then joinSpace meaningful else []
  else cleaned

/-- The tail of `_extract_food_items`, operating on the question-pattern
cleaned text `tl`. -/
def extractFoodItemsCore (tl : List Char) : List (List Char) :=
  match modPatLoop tl modificationPatterns with
  | some fp => [fp]
  | none =>
    if !(chooseCleaned tl).isEmpty then [chooseCleaned tl] else [tl]

/-- `_extract_food_items`. -/
def extractFoodItems (text : List Char) : List (List Char) :=
  extractFoodItemsCore
    (questionPatterns.foldl (fun acc p => pyReplace acc p [' ']) (pyLower (pyStrip text)))

def skipQtyWords : List (List Char) :=
  ["a".data, "an".data, "the".data, "some".data, "any".data, ['g'], "kg".data,
   "gram".data, "grams".data, "oz".data, "cup".data, "cups".data]

/-- The token loop of `_extract_first_item`. -/
def firstMeaningful : List (List Char) → Option (List Char)
  | [] => none
  | w :: ws =>
    let clean := stripChars ['.', ',', '!', '?'] w
    if !clean.isEmpty && clean.all isDigitCh then firstMeaningful ws
    else if clean.any isDigitCh then firstMeaningful ws
    else if skipQtyWords.contains clean then firstMeaningful ws
    else some clean

/-- `_extract_first_item`. -/
def extractFirstItem (text : List Char) : Option (List Char) :=
  let t := pyStrip text
  let viaOf : Option (List Char) :=
    if strIn " of ".data t then
      match pySplitWs ((afterFirst t (" of ".data)).getD []) with
      | w :: _ => some (stripChars ['.', ',', '!', ' ', '?'] w)
      | [] => none
    else none
  match viaOf with
  | some w => some w
  | none => firstMeaningful (pySplitWs t)

def removePatternsMods : List (List Char) :=
  [" without ".data, " bala ".data, " bidun ".data, " bidoun ".data,
   " remove ".data, " minus ".data, " no ".data, " exclude ".data]

def addPatternsMods : List (List Char) :=
  [" with added ".data, " with extra ".data, " extra ".data, " add ".data, " plus ".data]

/-- One family of `_extract_modifications` scans: for each pattern that
occurs, look at the text between its first and second occurrence and
keep the first meaningful item, if non-empty. -/
def modScan (tl : List Char) (pats : List (List Char)) : List (List Char) :=
  pats.foldl
    (fun acc p =>
      if strIn p tl then
        match pySplitOn tl p with
        | _ :: second :: _ =>
          match extractFirstItem (pyStrip second) with
          | some item => if !item.isEmpty then acc ++ [item] else acc
          | none => acc
        | _ => acc
      else acc)
    []

/-- `_extract_modifications`. -/
def extractModifications (text : List Char) : Mods :=
  let tl := [' '] ++ pyLower text ++ [' ']
  ⟨modScan tl removePatternsMods, modScan tl addPatternsMods⟩

/-- Word boundary `\b` after a unit letter: end of text or a non-word
character. -/
def wordBoundaryAt (rest : List Char) : Bool :=
  match rest with
  | [] => true
  | c :: _ => !isWordCh c

/-- Match one of the unit alternatives `g|gram|grams|kg` (in regex
alternation order), each followed by `\b`; returns whether the matched
unit is `kg`. -/
def unitMatch (r : List Char) : Option Bool :=
  if ['g'].isPrefixOf r ∧ wordBoundaryAt (r.drop 1) then some false
  else if "gram".data.isPrefixOf r ∧ wordBoundaryAt (r.drop 4) then some false
  else if "grams".data.isPrefixOf r ∧ wordBoundaryAt (r.drop 5) then some false
  else if "kg".data.isPrefixOf r ∧ wordBoundaryAt (r.drop 2) then some true
  else none

/-- Attempt the weight regex `(\d+)\s*(g|gram|grams|kg)\b` at this exact
position (greedy `\d+` and `\s*`; shorter digit runs can never make the
unit match, so greedy matching is faithful). -/
def weightMatchAt (s : List Char) : Option ℚ :=
  match s with
  | [] => none
  | c :: _ =>
    if isDigitCh c then
      let digits := s.takeWhile isDigitCh
      let rest := (s.dropWhile isDigitCh).dropWhile isWs
      (unitMatch rest).map
        (fun isKg => (digitsVal digits : ℚ) * (if isKg then 1000 else 1))
    else none

/-- `re.search` over all start positions, leftmost match wins. -/
def findWeightQ : List Char → Option ℚ
  | [] => none
  | c :: rest =>
    match weightMatchAt (c :: rest) with
    | some v => some v
    | none => findWeightQ rest

/-- `_extract_quantities`. -/
def extractQuantities (text : List Char) : Quantities :=
  let tl := pyLower text
  let m : Option ℚ :=
    if strIn "double".data tl || strIn "twice".data tl then some 2
    else if strIn "triple".data tl then some 3
    else if strIn "half".data tl then some (1/2)
    else none
  ⟨findWeightQ tl, m⟩

/-- `_calculate_confidence`.  The value is computed by the engine but the
`ParsedQuery` schema has no `confidence` field to carry it. -/
def calcConfidence (normalized : List Char) (foodItems : List (List Char)) (intent : Intent) : ℚ :=
  let c : ℚ := 1/2
  let c :=
    match foodItems with
    | [] => c
    | f :: _ =>
      if f.isEmpty then c
      else
        let ft := pyLower f
        if foodVocabulary.any (fun kv => ft = kv.1 || kv.2.contains ft) then
          c + 1/5 + 1/5
        else c + 1/5
  let c :=
    if intent = Intent.query_food ∨ intent = Intent.modify_remove ∨
        intent = Intent.modify_add then c + 1/10 else c
  let c := if (pySplitWs normalized).length < 2 then c - 1/10 else c
  ratMax 0 (ratMin 1 c)

/-- `parse_query`: normalisation, spelling correction, language
detection, intent classification and slot extraction.  The confidence
value passed to the `ParsedQuery` constructor is dropped by pydantic
because the schema declares no such field, so the result does not carry
it. -/
def parseQuery (tr : Translator) (text : List Char) : ParsedQuery :=
  let hasAr := hasArabicScript text
  let normalized := correctSpelling (normalizeText tr text hasAr)
  let language := if hasAr then "arabic".data else detectLanguage text
  { intent := classifyIntent normalized
    food_items := extractFoodItems normalized
    modifications := extractModifications normalized
    quantities := extractQuantities normalized
    language_detected := language
    original_text := text
    normalized_text := normalized }

/-! ### Food search engine (`app/services/food_search.py`) -/

/-- A nutrient record of a USDA food (`nutrientName` / `value` keys). -/
structure FoodNutrient where
  nutrientName : List Char
  value : ℚ
deriving DecidableEq

/-- A USDA ingredient record (`description`, `fdcId`, `foodNutrients`). -/
structure UsdaFood where
  description : List Char
  fdcId : Nat
  foodNutrients : List FoodNutrient
deriving DecidableEq

/-- One recipe-ingredient dictionary of a dish record. -/
structure RecipeItem where
  name : List Char
  weight_g : ℚ
  calories : ℚ
  fdcId : Nat
deriving DecidableEq

/-- A dish record; `total_calories` / `total_weight_g` dictionary keys may
be absent, hence `Option`. -/
structure Dish where
  dish_name : List Char
  country : List Char
  ingredients : List RecipeItem
  total_calories : Option ℚ
  total_weight_g : Option ℚ
deriving DecidableEq

/-- The tagged payload carried by a search-index entry: the underlying
dish or USDA dictionary. -/
inductive FoodData where
  | dish (d : Dish)
  | usda (f : UsdaFood)
deriving DecidableEq

/-- An entry of `FoodSearchService.search_index`. -/
structure IndexItem where
  name : List Char
  originalName : List Char
  data : FoodData
  source : List Char
  country : List Char
deriving DecidableEq

/-- `_build_search_index`: dishes first, then the two USDA sets; records
with empty names are skipped. -/
def buildSearchIndex (dishes : List Dish) (foundation legacy : List UsdaFood) : List IndexItem :=
  dishes.filterMap (fun d =>
    if d.dish_name.isEmpty then none
    else some ⟨pyLower d.dish_name, d.dish_name, FoodData.dish d, "dishes".data, pyLower d.country⟩) ++
  foundation.filterMap (fun f =>
    if f.description.isEmpty then none
    else some ⟨pyLower f.description, f.description, FoodData.usda f, "usda_foundation".data, []⟩) ++
  legacy.filterMap (fun f =>
    if f.description.isEmpty then none
    else some ⟨pyLower f.description, f.description, FoodData.usda f, "usda_sr_legacy".data, []⟩)

structure SearchService where
  search_index : List IndexItem
deriving DecidableEq

def mkService (dishes : List Dish) (foundation legacy : List UsdaFood) : SearchService :=
  ⟨buildSearchIndex dishes foundation legacy⟩

def dishIndex (svc : SearchService) : List IndexItem :=
  svc.search_index.filter (fun it => it.source = "dishes".data)

def usdaIndex (svc : SearchService) : List IndexItem :=
  svc.search_index.filter (fun it => it.source ≠ "dishes".data)

def dishNames (svc : SearchService) : List (List Char) :=
  (dishIndex svc).map (fun it => it.name)

def usdaNames (svc : SearchService) : List (List Char) :=
  (usdaIndex svc).map (fun it => it.name)

/-- `_normalize_item_name`. -/
def normalizeItemName (name : List Char) : List (List Char) :=
  pySplitWs (pyLower
    (pyReplace (pyReplace (pyReplace (pyReplace name [','] [' ']) ['-'] [' ']) ['('] [' ']) [')'] [' ']))

/-- `_is_plural_match`. -/
def isPluralMatch (sing plural : List Char) : Bool :=
  plural = sing ++ ['s'] ||
  plural = sing ++ "es".data ||
  (2 ≤ sing.length && sing.getLast? = some 'y' && plural = sing.dropLast ++ "ies".data)

/-- The external `fuzz.WRatio` scorer used through `process.extract`
(rapidfuzz is an external library; the scorer is passed explicitly). -/
def Scorer : Type := List Char → List Char → ℚ

/-- rapidfuzz `process.extract(query, names, scorer, limit)`: every name
scored, sorted descending (stable), truncated to `limit`. -/
def processExtract (w : Scorer) (q : List Char) (names : List (List Char)) (limit : Nat) :
    List (List Char × ℚ) :=
  (sortDesc (fun p => p.2) (names.map (fun n => (n, w q n)))).take limit

/-- `for item in self.usda_index: if item["name"] == name: ...; break`. -/
def lookupUsda (idx : List IndexItem) (n : List Char) : Option IndexItem :=
  idx.find? (fun it => it.name = n)

/-- One candidate result triple `(data, source, score)`. -/
abbrev Candidate := FoodData × List Char × ℚ

def candScore (c : Candidate) : ℚ := c.2.2

/-- Step 2 scoring of a single USDA entry for a single-word query:
base score and whether it was a first-word match. -/
def step2Score (ws : List (List Char)) (qlow : List Char) : Option (ℚ × Bool) :=
  match ws with
  | [] => none
  | w0 :: _ =>
    if w0 = qlow then some (19/20, true)
    else if isPluralMatch qlow w0 then some (19/20, true)
    else if ws.contains qlow then some (17/20, false)
    else if qlow.isPrefixOf w0 ∧ 4 ≤ qlow.length then some (3/4, false)
    else none

/-- Step 2 word-level matches over the USDA index, with the word-count
penalty applied, sorted descending by score (stable). -/
def step2Matches (usdaIdx : List IndexItem) (qlow : List Char) : List (IndexItem × ℚ) :=
  sortDesc (fun p => p.2)
    (usdaIdx.filterMap (fun it =>
      let ws := normalizeItemName it.name
      (step2Score ws qlow).map (fun bs =>
        let wc : ℚ := (ws.length : ℚ)
        let penalty := ratMin (wc * (1/100)) (5/100)
        let penalty := if bs.2 ∧ ws.length ≤ 3 then penalty * (1/2) else penalty
        (it, bs.1 - penalty))))

/-- Step 2 of `search` for single-word queries; `some` means the search
returns this list immediately. -/
def step2Result (w : Scorer) (svc : SearchService) (qlow : List Char) (topK : Nat) :
    Option (List Candidate) :=
  let wm := step2Matches (usdaIndex svc) qlow
  match wm with
  | [] =>
    let fz := (processExtract w qlow (usdaNames svc) 5).filter (fun p => 60 ≤ p.2)
    let res := fz.filterMap (fun p =>
      (lookupUsda (usdaIndex svc) p.1).map (fun it => (it.data, it.source, p.2 / 100)))
    if res.isEmpty then none else some ((sortDesc candScore res).take topK)
  | m :: _ =>
    if 3/4 ≤ m.2 then
      some ((sortDesc candScore ((wm.take 10).map (fun p => (p.1.data, p.1.source, p.2)))).take topK)
    else none

/-- Steps 3 and 4: country-restricted dish fuzzy search, broadened to the
full dish corpus (with a 0.9 penalty on foreign dishes) when weak. -/
def step34 (w : Scorer) (svc : SearchService) (qlow clow : List Char) : List Candidate :=
  let r3 :=
    if (dishNames svc).isEmpty then []
    else
      let countryDishes := (dishIndex svc).filter (fun it => it.country = clow)
      if countryDishes.isEmpty then []
      else
        ((processExtract w qlow (countryDishes.map (fun it => it.name)) 3).filter
            (fun p => 70 ≤ p.2)).filterMap
          (fun p => (countryDishes.find? (fun it => it.name = p.1)).map
            (fun it => ((it.data, it.source, p.2 / 100) : Candidate)))
  let broaden :=
    match r3 with
    | [] => true
    | r :: _ => candScore r < 4/5
  let r4 :=
    if broaden then
      ((processExtract w qlow (dishNames svc) 3).filter (fun p => 70 ≤ p.2)).filterMap
        (fun p => ((dishIndex svc).find? (fun it => it.name = p.1)).map
          (fun it =>
            ((it.data, it.source,
              (p.2 / 100) * (if it.country ≠ clow then 9/10 else 1)) : Candidate)))
    else []
  r3 ++ r4

/-- Step 5 scoring of one USDA entry: only first-word equality (0.95) or
the whole query as a token (0.85). -/
def step5ScoreOf (qlow : List Char) (it : IndexItem) : Option (IndexItem × ℚ) :=
  match normalizeItemName it.name with
  | [] => none
  | w0 :: rest =>
    if w0 = qlow then some (it, 19/20)
    else if (w0 :: rest).contains qlow then some (it, 17/20)
    else none

/-- Step 5 word-level matches. -/
def step5WordMatches (usdaIdx : List IndexItem) (qlow : List Char) : List (IndexItem × ℚ) :=
  usdaIdx.filterMap (step5ScoreOf qlow)

/-- Step 5: USDA search for queries that did not resolve earlier;
fuzzy fallback (threshold 60) only when there is no word match at all. -/
def step5 (w : Scorer) (svc : SearchService) (qlow : List Char) : List Candidate :=
  if (usdaNames svc).isEmpty then []
  else
    let wm := step5WordMatches (usdaIndex svc) qlow
    let sorted := ((sortDesc (fun p => p.2) wm).take 5).map
      (fun p => ((p.1.data, p.1.source, p.2) : Candidate))
    let fz :=
      if wm.isEmpty then
        ((processExtract w qlow (usdaNames svc) 3).filter (fun p => 60 ≤ p.2)).filterMap
          (fun p => (lookupUsda (usdaIndex svc) p.1).map
            (fun it => ((it.data, it.source, p.2 / 100) : Candidate)))
      else []
    sorted ++ fz

/-- De-duplication by lower-cased display name, keeping the first
(highest-ranked) occurrence. -/
def dedupKey (d : FoodData) : List Char :=
  match d with
  | FoodData.dish dd => if dd.dish_name.isEmpty then [] else dd.dish_name
  | FoodData.usda f => f.description

def dedupe : List Candidate → List (List Char) → List Candidate
  | [], _ => []
  | c :: rest, seen =>
    let key := pyLower (dedupKey c.1)
    if seen.contains key then dedupe rest seen
    else c :: dedupe rest (key :: seen)

/-- Step 1 of `search`: scan the index for an exact name match.  A USDA
hit returns immediately (`Sum.inr`); a dish hit that passes the country
filter is held (`Sum.inl`, the loop breaks); a dish hit failing the
filter is skipped. -/
def exactFirst (qlow clow : List Char) : List IndexItem → Option (Sum IndexItem IndexItem)
  | [] => none
  | it :: rest =>
    if qlow = it.name then
      if it.source = "dishes".data then
        if clow.isEmpty || it.country = clow then some (Sum.inl it)
        else exactFirst qlow clow rest
      else some (Sum.inr it)
    else exactFirst qlow clow rest

/-- The shared tail of `search` after the exact-match stage. -/
def searchRest (w : Scorer) (svc : SearchService) (qlow clow : List Char)
    (isSingle : Bool) (topK : Nat) : List Candidate :=
  match (if isSingle then step2Result w svc qlow topK else none) with
  | some r => r
  | none =>
    let results := step34 w svc qlow clow ++ step5 w svc qlow
    (dedupe (sortDesc candScore results) []).take topK

/-- `FoodSearchService.search`. -/
def search (w : Scorer) (svc : SearchService) (query country : List Char) (topK : Nat) :
    List Candidate :=
  let qlow := pyStrip (pyLower query)
  let clow := pyStrip (pyLower country)
  if qlow.isEmpty then []
  else
    let isSingle := (pySplitWs qlow).length = 1
    match exactFirst qlow clow svc.search_index with
    | some (Sum.inr it) => [(it.data, it.source, 1)]
    | some (Sum.inl it) =>
      if !isSingle then [(it.data, it.source, 1)]
      else searchRest w svc qlow clow isSingle topK
    | none => searchRest w svc qlow clow isSingle topK

/-! ### Calorie calculator (`app/services/calorie_calculator.py`) -/

/-- `dict.get`-style accessors on the tagged food payload, mirroring the
keys present in dish respectively USDA dictionaries. -/
def FoodData.getDishName : FoodData → Option (List Char)
  | FoodData.dish d => some d.dish_name
  | _ => none

def FoodData.getRecipe : FoodData → List RecipeItem
  | FoodData.dish d => d.ingredients
  | _ => []

def FoodData.getTotalCalories : FoodData → Option ℚ
  | FoodData.dish d => d.total_calories
  | _ => none

def FoodData.getTotalWeight : FoodData → Option ℚ
  | FoodData.dish d => d.total_weight_g
  | _ => none

def FoodData.getDescription : FoodData → Option (List Char)
  | FoodData.usda f => some f.description
  | _ => none

def FoodData.getFdcId : FoodData → Nat
  | FoodData.usda f => f.fdcId
  | _ => 0

def FoodData.getNutrients : FoodData → List FoodNutrient
  | FoodData.usda f => f.foodNutrients
  | _ => []

/-- `_create_not_found_result`: the canonical not-found sentinel. -/
def createNotFoundResult (q : List Char) : CalorieResult :=
  { food_name := q
    original_query := q
    total_calories := 0
    weight_g := 0
    ingredients := []
    modifications := []
    source := "not_found".data
    confidence := 0
    is_approximate := true
    country := [] }

/-- `_calculate_dish_calories`.  The Python loop accumulates
`total_calories` / `total_weight` alongside the ingredient list; the
accumulated values equal the list sums, written as such here.  If the
recipe is empty or its calories sum to zero, the dish-level aggregate
values replace the totals while the ingredient list is kept as built. -/
def calculateDishCalories (fd : FoodData) (pq : ParsedQuery) (conf : ℚ) : CalorieResult :=
  let items := fd.getRecipe
  let ings := items.map (fun it => Ingredient.mk it.fdcId it.name it.weight_g it.calories)
  let tc := (items.map (fun it => it.calories)).sum
  let tw := (items.map (fun it => it.weight_g)).sum
  let totals :=
    if ings.isEmpty || tc = 0 then
      (fd.getTotalCalories.getD 0, fd.getTotalWeight.getD 100)
    else (tc, tw)
  { food_name := fd.getDishName.getD "Unknown Dish".data
    original_query := pq.original_text
    total_calories := totals.1
    weight_g := totals.2
    ingredients := ings
    modifications := []
    source := "dishes".data
    confidence := conf
    is_approximate := false
    country := [] }

/-- First nutrient whose name contains "Energy" or (case-folded)
"calorie"; 0 when none. -/
def findEnergyPer100 (ns : List FoodNutrient) : ℚ :=
  match ns.find? (fun n =>
      strIn "Energy".data n.nutrientName || strIn "calorie".data (pyLower n.nutrientName)) with
  | some n => n.value
  | none => 0

/-- `_calculate_ingredient_calories`. -/
def calculateIngredientCalories (fd : FoodData) (pq : ParsedQuery) (conf : ℚ)
    (source : List Char) : CalorieResult :=
  let foodName := fd.getDescription.getD "Unknown Food".data
  let cal100 := findEnergyPer100 fd.getNutrients
  let w := pq.quantities.weight.getD 100
  let tc := cal100 * w / 100
  { food_name := foodName
    original_query := pq.original_text
    total_calories := tc
    weight_g := w
    ingredients := [⟨fd.getFdcId, foodName, w, tc⟩]
    modifications := []
    source := source
    confidence := conf
    is_approximate := false
    country := [] }

/-- First removal pass: substring containment either way between the
term and the ingredient name; removes at most one ingredient. -/
def removePass1 (il : List Char) : List Ingredient → Option (List Ingredient × List Char)
  | [] => none
  | ing :: rest =>
    if strIn il (pyLower ing.name) || strIn (pyLower ing.name) il then some (rest, ing.name)
    else (removePass1 il rest).map (fun p => (ing :: p.1, p.2))

/-- Second removal pass: token-level containment against the name's
words. -/
def removePass2 (il : List Char) : List Ingredient → Option (List Ingredient × List Char)
  | [] => none
  | ing :: rest =>
    if (pySplitWs (pyLower ing.name)).any (fun word => strIn il word || strIn word il) then
      some (rest, ing.name)
    else (removePass2 il rest).map (fun p => (ing :: p.1, p.2))

/-- The removal loop of `_apply_modifications` (note the audit notes:
two spaces after the colon in the first pass, one in the second, exactly
as in the source). -/
def applyRemovals (terms : List (List Char)) (st : List Ingredient × List (List Char)) :
    List Ingredient × List (List Char) :=
  terms.foldl
    (fun acc term =>
      let il := pyLower term
      match removePass1 il acc.1 with
      | some p => (p.1, acc.2 ++ ["Removed:  ".data ++ p.2])
      | none =>
        match removePass2 il acc.1 with
        | some p => (p.1, acc.2 ++ ["Removed: ".data ++ p.2])
        | none => acc)
    st

/-- The addition loop of `_apply_modifications`: each term is searched
with an empty country filter; dish matches contribute their aggregate
values (defaults 50 kcal / 30 g), USDA matches 30 g scaled from their
per-100 g energy, and misses a 30 g / 50 kcal estimate. -/
def applyAdds (w : Scorer) (svc : SearchService) (terms : List (List Char))
    (st : List Ingredient × List (List Char)) : List Ingredient × List (List Char) :=
  terms.foldl
    (fun acc term =>
      match search w svc term [] 5 with
      | (fd, source, _) :: _ =>
        let vals :=
          if source = "dishes".data then
            (fd.getTotalCalories.getD 50, fd.getTotalWeight.getD 30)
          else
            let cal100 :=
              match fd.getNutrients.find? (fun n => strIn "Energy".data n.nutrientName) with
              | some n => n.value
              | none => 0
            ((cal100 * 30) / 100, (30 : ℚ))
        (acc.1 ++ [⟨fd.getFdcId, pyTitle term, vals.2, vals.1⟩],
         acc.2 ++ ["Added: ".data ++ term])
      | [] =>
        (acc.1 ++ [⟨0, pyTitle term, 30, 50⟩],
         acc.2 ++ ["Added: ".data ++ term ++ " (estimated)".data]))
    st

/-- `_apply_modifications`: removals, then additions, then totals
recomputed as sums over the final ingredient list. -/
def applyModifications (w : Scorer) (svc : SearchService) (result : CalorieResult)
    (mods : Mods) : CalorieResult :=
  let st := applyAdds w svc mods.add (applyRemovals mods.remove (result.ingredients, result.modifications))
  { result with
    total_calories := (st.1.map (fun i => i.calories)).sum
    weight_g := (st.1.map (fun i => i.weight_g)).sum
    ingredients := st.1
    modifications := st.2 }

/-- Python `f"{x}"` for the multipliers reachable here (floats of
integral value render as `n.0`; other rationals use a fraction form,
unreachable from quantity extraction). -/
def floatRepr (q : ℚ) : List Char :=
  (if q.num < 0 then ['-'] else []) ++
  (if q.den = 1 then Nat.toDigits 10 q.num.natAbs ++ ".0".data
   else Nat.toDigits 10 q.num.natAbs ++ ['/'] ++ Nat.toDigits 10 q.den)

/-- `_apply_multiplier`. -/
def applyMultiplier (result : CalorieResult) (m : ℚ) : CalorieResult :=
  let mt :=
    if m = 2 then "double".data
    else if m = 1/2 then "half".data
    else floatRepr m ++ ['x']
  { result with
    food_name := result.food_name ++ " (".data ++ mt ++ " portion)".data
    total_calories := result.total_calories * m
    weight_g := result.weight_g * m
    ingredients := result.ingredients.map (fun i =>
      { i with weight_g := i.weight_g * m, calories := i.calories * m })
    modifications := result.modifications ++ ["Quantity:  ".data ++ mt] }

/-- Python `int(x)` (truncation toward zero) rendered as digits. -/
def intRepr (q : ℚ) : List Char :=
  let t : Int := q.num / (q.den : Int)
  (if t < 0 then ['-'] else []) ++ Nat.toDigits 10 t.natAbs

/-- `_apply_custom_weight`. -/
def applyCustomWeight (result : CalorieResult) (target : ℚ) : CalorieResult :=
  if result.weight_g = 0 then result
  else
    let ratio := target / result.weight_g
    { result with
      food_name := result.food_name ++ " (".data ++ intRepr target ++ "g)".data
      total_calories := result.total_calories * ratio
      weight_g := target
      ingredients := result.ingredients.map (fun i =>
        { i with weight_g := i.weight_g * ratio, calories := i.calories * ratio })
      modifications := result.modifications ++ ["Adjusted to ".data ++ intRepr target ++ "g".data]
      is_approximate := true }

/-- The serialized previous-turn result held by the session context.
Reconstructing it can fail in Python (malformed snapshot), which the
inner `try` of `_handle_modification` catches; a snapshot is therefore
modelled as an `Except`. -/
structure LastData where
  food_name : List Char
  total_calories : ℚ
  weight_g : ℚ
  ingredients : List Ingredient
  modifications : List (List Char)
  source : List Char
  confidence : ℚ
  is_approximate : Bool
deriving DecidableEq

structure Ctx where
  lastResult : Option (Except (List Char) LastData)

/-- `if source == "dishes"` dispatch shared by `calculate` and the
modification fallback. -/
def baseResult (fd : FoodData) (src : List Char) (pq : ParsedQuery) (conf : ℚ) : CalorieResult :=
  if src = "dishes".data then calculateDishCalories fd pq conf
  else calculateIngredientCalories fd pq conf src

/-- `_handle_modification`: reconstruct the previous result and apply the
new modification set; on reconstruction failure, degrade to a fresh
search (plus modifications), or to the sentinel. -/
def handleModification (w : Scorer) (svc : SearchService) (pq : ParsedQuery)
    (blob : Except (List Char) LastData) (country : List Char) : CalorieResult :=
  match blob with
  | Except.ok last =>
    let result : CalorieResult :=
      { food_name := last.food_name
        original_query := pq.original_text
        total_calories := last.total_calories
        weight_g := last.weight_g
        ingredients := last.ingredients
        modifications := last.modifications
        source := last.source
        confidence := last.confidence
        is_approximate := last.is_approximate
        country := country }
    applyModifications w svc result pq.modifications
  | Except.error _ =>
    match pq.food_items with
    | f :: _ =>
      match search w svc f country 5 with
      | (fd, src, conf) :: _ =>
        applyModifications w svc (baseResult fd src pq conf) pq.modifications
      | [] => createNotFoundResult pq.original_text
    | [] => createNotFoundResult pq.original_text

/-- `if parsed_query.modifications.get("remove") or ...get("add")`. -/
def afterMods (w : Scorer) (svc : SearchService) (pq : ParsedQuery) (r : CalorieResult) :
    CalorieResult :=
  if !pq.modifications.remove.isEmpty || !pq.modifications.add.isEmpty then
    applyModifications w svc r pq.modifications
  else r

/-- `if parsed_query.quantities.get("_multiplier"):` (Python truthiness:
an absent key or the value `0.0` skips the step). -/
def afterMultiplier (pq : ParsedQuery) (r : CalorieResult) : CalorieResult :=
  match pq.quantities.multiplier with
  | some m => if m ≠ 0 then applyMultiplier r m else r
  | none => r

/-- `if parsed_query.quantities.get("_weight"):` (same truthiness). -/
def afterWeight (pq : ParsedQuery) (r : CalorieResult) : CalorieResult :=
  match pq.quantities.weight with
  | some t => if t ≠ 0 then applyCustomWeight r t else r
  | none => r

/-- The main search-and-compute path of `calculate`.  The missing-dish
logger is an external collaborator whose call may raise; its outcome is
passed in as `logOutcome` and any error propagates to the enclosing
`try`. -/
def calculateMain (w : Scorer) (svc : SearchService) (logOutcome : Except (List Char) Unit)
    (pq : ParsedQuery) (food country : List Char) : Except (List Char) CalorieResult :=
  match search w svc food country 5 with
  | [] =>
    match logOutcome with
    | Except.ok _ => Except.ok (createNotFoundResult food)
    | Except.error e => Except.error e
  | (fd, src, conf) :: _ =>
    Except.ok
      { afterWeight pq (afterMultiplier pq (afterMods w svc pq (baseResult fd src pq conf))) with
        country := country }

/-- The body of `calculate`'s `try` block. -/
def calculateBody (w : Scorer) (svc : SearchService) (logOutcome : Except (List Char) Unit)
    (pq : ParsedQuery) (country : List Char) (ctx : Ctx) : Except (List Char) CalorieResult :=
  match pq.food_items with
  | [] => Except.ok (createNotFoundResult pq.original_text)
  | food :: _ =>
    if pq.intent = Intent.modify_remove ∨ pq.intent = Intent.modify_add then
      match ctx.lastResult with
      | some blob => Except.ok (handleModification w svc pq blob country)
      | none => calculateMain w svc logOutcome pq food country
    else calculateMain w svc logOutcome pq food country

/-- `CalorieCalculatorService.calculate`: the `try` body with its
catch-all `except` returning the not-found sentinel. -/
def calculate (w : Scorer) (svc : SearchService) (logOutcome : Except (List Char) Unit)
    (pq : ParsedQuery) (country : List Char) (ctx : Ctx) : CalorieResult :=
  match calculateBody w svc logOutcome pq country ctx with
  | Except.ok r => r
  | Except.error _ => createNotFoundResult pq.original_text

/-- The invariant of claim C1. -/
def resultInvariant (r : CalorieResult) : Prop :=
  r.total_calories = (r.ingredients.map (fun i => i.calories)).sum ∧
  r.weight_g = (r.ingredients.map (fun i => i.weight_g)).sum

instance (r : CalorieResult) : Decidable (resultInvariant r) := by
  unfold resultInvariant; infer_instance

/-! ### Shared lemmas -/

theorem sum_map_scale (l : List Ingredient) (f : Ingredient → ℚ) (g : Ingredient → Ingredient)
    (m : ℚ) (hf : ∀ i, f (g i) = f i * m) :
    ((l.map g).map f).sum = (l.map f).sum * m := by
  induction l with
  | nil => simp
  | cons a t ih => simp only [List.map_cons, List.sum_cons, hf, ih, add_mul]

theorem inv_applyModifications (w : Scorer) (svc : SearchService) (r : CalorieResult)
    (m : Mods) : resultInvariant (applyModifications w svc r m) := by
  constructor <;> rfl

theorem inv_createNotFound (q : List Char) : resultInvariant (createNotFoundResult q) := by
  constructor <;> rfl

theorem inv_calculateIngredient (fd : FoodData) (pq : ParsedQuery) (conf : ℚ)
    (src : List Char) : resultInvariant (calculateIngredientCalories fd pq conf src) := by
  constructor <;> simp [calculateIngredientCalories]

theorem map_mk_calories (items : List RecipeItem) :
    List.map (fun i => i.calories)
      (items.map (fun it => Ingredient.mk it.fdcId it.name it.weight_g it.calories)) =
    items.map (fun it => it.calories) := by
  induction items with
  | nil => rfl
  | cons a t ih => simp only [List.map_cons, ih]

theorem map_mk_weights (items : List RecipeItem) :
    List.map (fun i => i.weight_g)
      (items.map (fun it => Ingredient.mk it.fdcId it.name it.weight_g it.calories)) =
    items.map (fun it => it.weight_g) := by
  induction items with
  | nil => rfl
  | cons a t ih => simp only [List.map_cons, ih]

theorem inv_calculateDish (fd : FoodData) (pq : ParsedQuery) (conf : ℚ)
    (h : ¬((fd.getRecipe.map (fun it => Ingredient.mk it.fdcId it.name it.weight_g it.calories)).isEmpty ||
            ((fd.getRecipe.map (fun it => it.calories)).sum = 0) : Bool)) :
    resultInvariant (calculateDishCalories fd pq conf) := by
  unfold resultInvariant calculateDishCalories
  simp only [h, Bool.false_eq_true, if_false, ite_false]
  exact ⟨by rw [map_mk_calories], by rw [map_mk_weights]⟩

theorem inv_applyMultiplier (r : CalorieResult) (m : ℚ) (h : resultInvariant r) :
    resultInvariant (applyMultiplier r m) := by
  obtain ⟨h1, h2⟩ := h
  unfold resultInvariant applyMultiplier
  dsimp only
  constructor
  · rw [h1, sum_map_scale _ _ _ m (fun i => rfl)]
  · rw [h2, sum_map_scale _ _ _ m (fun i => rfl)]

theorem inv_applyCustomWeight (r : CalorieResult) (t : ℚ) (h : resultInvariant r) :
    resultInvariant (applyCustomWeight r t) := by
  obtain ⟨h1, h2⟩ := h
  unfold applyCustomWeight
  by_cases hz : r.weight_g = 0
  · simp only [hz, if_pos rfl]; exact ⟨h1, h2⟩
  · simp only [if_neg hz]
    unfold resultInvariant
    dsimp only
    constructor
    · rw [h1, sum_map_scale _ _ _ (t / r.weight_g) (fun i => rfl)]
    · rw [sum_map_scale _ _ _ (t / r.weight_g) (fun i => rfl), ← h2]
      field_simp

theorem inv_setCountry (r : CalorieResult) (c : List Char) (h : resultInvariant r) :
    resultInvariant { r with country := c } := h

theorem inv_handleModification (w : Scorer) (svc : SearchService) (pq : ParsedQuery)
    (blob : Except (List Char) LastData) (country : List Char) :
    resultInvariant (handleModification w svc pq blob country) := by
  unfold handleModification
  split
  · exact inv_applyModifications _ _ _ _
  · split
    · split
      · exact inv_applyModifications _ _ _ _
      · exact inv_createNotFound _
    · exact inv_createNotFound _

/-- The dish-level fallback condition of `_calculate_dish_calories`:
empty built ingredient list or zero summed calories. -/
def dishFallbackFires (fd : FoodData) : Bool :=
  (fd.getRecipe.map (fun it => Ingredient.mk it.fdcId it.name it.weight_g it.calories)).isEmpty ||
  ((fd.getRecipe.map (fun it => it.calories)).sum = 0)

/-- Condition under which the main path of `calculate` is known to keep
the C1 invariant: either no candidate, or a non-dish best candidate, or
a dish best candidate whose aggregate fallback does not fire, or a
modification batch that recomputes the totals afterwards. -/
def invConditionMain (w : Scorer) (svc : SearchService) (pq : ParsedQuery)
    (food country : List Char) : Bool :=
  match search w svc food country 5 with
  | [] => true
  | (fd, src, _) :: _ =>
    if src = "dishes".data then
      (!pq.modifications.remove.isEmpty || !pq.modifications.add.isEmpty) ||
      !dishFallbackFires fd
    else true

/-- Condition under which `calculate` is known to keep the C1 invariant
(the previous-result modification path always recomputes totals, so it
is unconditional there). -/
def invCondition (w : Scorer) (svc : SearchService) (pq : ParsedQuery)
    (country : List Char) (ctx : Ctx) : Bool :=
  match pq.food_items with
  | [] => true
  | food :: _ =>
    if pq.intent = Intent.modify_remove ∨ pq.intent = Intent.modify_add then
      match ctx.lastResult with
      | some _ => true
      | none => invConditionMain w svc pq food country
    else invConditionMain w svc pq food country

theorem inv_afterMods_of (w : Scorer) (svc : SearchService) (pq : ParsedQuery)
    (r : CalorieResult) (h : resultInvariant r) : resultInvariant (afterMods w svc pq r) := by
  unfold afterMods
  split
  · exact inv_applyModifications _ _ _ _
  · exact h

theorem inv_afterMods_of_mods (w : Scorer) (svc : SearchService) (pq : ParsedQuery)
    (r : CalorieResult)
    (h : (!pq.modifications.remove.isEmpty || !pq.modifications.add.isEmpty) = true) :
    resultInvariant (afterMods w svc pq r) := by
  unfold afterMods
  rw [if_pos h]
  exact inv_applyModifications _ _ _ _

theorem inv_afterMultiplier (pq : ParsedQuery) (r : CalorieResult)
    (h : resultInvariant r) : resultInvariant (afterMultiplier pq r) := by
  unfold afterMultiplier
  split
  · split
    · exact inv_applyMultiplier _ _ h
    · exact h
  · exact h

theorem inv_afterWeight (pq : ParsedQuery) (r : CalorieResult)
    (h : resultInvariant r) : resultInvariant (afterWeight pq r) := by
  unfold afterWeight
  split
  · split
    · exact inv_applyCustomWeight _ _ h
    · exact h
  · exact h

theorem calculateMain_eq_of_cons (w : Scorer) (svc : SearchService)
    (log : Except (List Char) Unit) (pq : ParsedQuery) (food country : List Char)
    (fd : FoodData) (src : List Char) (conf : ℚ) (tail : List Candidate)
    (hs : search w svc food country 5 = (fd, src, conf) :: tail) :
    calculateMain w svc log pq food country =
      Except.ok
        { afterWeight pq (afterMultiplier pq (afterMods w svc pq (baseResult fd src pq conf))) with
          country := country } := by
  unfold calculateMain
  rw [hs]

theorem calculateMain_eq_of_nil (w : Scorer) (svc : SearchService)
    (log : Except (List Char) Unit) (pq : ParsedQuery) (food country : List Char)
    (hs : search w svc food country 5 = []) :
    calculateMain w svc log pq food country =
      match log with
      | Except.ok _ => Except.ok (createNotFoundResult food)
      | Except.error e => Except.error e := by
  unfold calculateMain
  rw [hs]

theorem invConditionMain_eq_of_cons (w : Scorer) (svc : SearchService) (pq : ParsedQuery)
    (food country : List Char) (fd : FoodData) (src : List Char) (conf : ℚ)
    (tail : List Candidate) (hs : search w svc food country 5 = (fd, src, conf) :: tail) :
    invConditionMain w svc pq food country =
      if src = "dishes".data then
        (!pq.modifications.remove.isEmpty || !pq.modifications.add.isEmpty) ||
        !dishFallbackFires fd
      else true := by
  unfold invConditionMain
  rw [hs]

theorem inv_baseResult (fd : FoodData) (src : List Char) (pq : ParsedQuery) (conf : ℚ)
    (h : src = "dishes".data → dishFallbackFires fd = false) :
    resultInvariant (baseResult fd src pq conf) := by
  unfold baseResult
  split
  · next hd =>
    refine inv_calculateDish fd pq conf ?_
    have hff := h hd
    unfold dishFallbackFires at hff
    intro hc
    rw [hc] at hff
    simp at hff
  · exact inv_calculateIngredient fd pq conf src

theorem inv_calculateMain (w : Scorer) (svc : SearchService)
    (log : Except (List Char) Unit) (pq : ParsedQuery) (food country : List Char)
    (h : invConditionMain w svc pq food country = true) (r : CalorieResult)
    (hr : calculateMain w svc log pq food country = Except.ok r) :
    resultInvariant r := by
  cases hs : search w svc food country 5 with
  | nil =>
    rw [calculateMain_eq_of_nil w svc log pq food country hs] at hr
    cases log with
    | ok u => cases hr; exact inv_createNotFound _
    | error e => cases hr
  | cons c tail =>
    obtain ⟨fd, src, conf⟩ := c
    rw [calculateMain_eq_of_cons w svc log pq food country fd src conf tail hs] at hr
    rw [invConditionMain_eq_of_cons w svc pq food country fd src conf tail hs] at h
    cases hr
    apply inv_setCountry
    by_cases hm : (!pq.modifications.remove.isEmpty || !pq.modifications.add.isEmpty) = true
    · exact inv_afterWeight _ _ (inv_afterMultiplier _ _ (inv_afterMods_of_mods _ _ _ _ hm))
    · refine inv_afterWeight _ _ (inv_afterMultiplier _ _ (inv_afterMods_of _ _ _ _ ?_))
      refine inv_baseResult fd src pq conf ?_
      intro hd
      rw [if_pos hd] at h
      rw [Bool.or_eq_true] at h
      rcases h with h | h
      · exact absurd h hm
      · simp only [Bool.not_eq_true'] at h
        exact h

theorem calculateBody_eq_nil (w : Scorer) (svc : SearchService) (log : Except (List Char) Unit)
    (pq : ParsedQuery) (country : List Char) (ctx : Ctx) (hfi : pq.food_items = []) :
    calculateBody w svc log pq country ctx =
      Except.ok (createNotFoundResult pq.original_text) := by
  unfold calculateBody
  rw [hfi]

theorem calculateBody_eq_cons (w : Scorer) (svc : SearchService) (log : Except (List Char) Unit)
    (pq : ParsedQuery) (country : List Char) (ctx : Ctx) (food : List Char)
    (rest : List (List Char)) (hfi : pq.food_items = food :: rest) :
    calculateBody w svc log pq country ctx =
      (if pq.intent = Intent.modify_remove ∨ pq.intent = Intent.modify_add then
        match ctx.lastResult with
        | some blob => Except.ok (handleModification w svc pq blob country)
        | none => calculateMain w svc log pq food country
      else calculateMain w svc log pq food country) := by
  unfold calculateBody
  rw [hfi]

theorem invCondition_eq_cons (w : Scorer) (svc : SearchService) (pq : ParsedQuery)
    (country : List Char) (ctx : Ctx) (food : List Char) (rest : List (List Char))
    (hfi : pq.food_items = food :: rest) :
    invCondition w svc pq country ctx =
      (if pq.intent = Intent.modify_remove ∨ pq.intent = Intent.modify_add then
        match ctx.lastResult with
        | some _ => true
        | none => invConditionMain w svc pq food country
      else invConditionMain w svc pq food country) := by
  unfold invCondition
  rw [hfi]

/-! ### Concrete fixtures used by witnesses and counterexamples -/

/-- A scorer that rejects everything (used where the fuzzy fallback must
not be relied upon; the exact-match and word-match stages never consult
the scorer). -/
def w0 : Scorer := fun _ _ => 0

def ctx0 : Ctx := ⟨none⟩

def chickenRaw : UsdaFood := ⟨"Chicken, raw".data, 1001, [⟨"Energy".data, 165⟩]⟩

def svcChicken : SearchService := mkService [] [chickenRaw] []

def chickenItem : IndexItem :=
  ⟨"chicken, raw".data, "Chicken, raw".data, FoodData.usda chickenRaw, "usda_foundation".data, []⟩

/-- A dish with an empty itemised recipe but non-zero aggregate totals:
`_calculate_dish_calories` then takes the dish-level fallback. -/
def aggDish : Dish := ⟨"Koshari Rice".data, "egypt".data, [], some 500, some 300⟩

def svcAggDish : SearchService := mkService [aggDish] [] []

def pqAggDish : ParsedQuery :=
  ⟨Intent.query_food, ["koshari rice".data], ⟨[], []⟩, ⟨none, none⟩,
   "english".data, "koshari rice".data, "koshari rice".data⟩

def pqChickenExact : ParsedQuery :=
  ⟨Intent.query_food, ["chicken, raw".data], ⟨[], []⟩, ⟨none, none⟩,
   "english".data, "chicken, raw".data, "chicken, raw".data⟩

/-- A dish and a USDA ingredient sharing the same name. -/
def sharedNameDish : Dish := ⟨"Butter bread".data, [], [⟨"butter".data, 10, 70, 0⟩], some 200, some 50⟩

def sharedNameUsda : UsdaFood := ⟨"Butter bread".data, 7, [⟨"Energy".data, 400⟩]⟩

def svcSharedName : SearchService := mkService [sharedNameDish] [sharedNameUsda] []

def usdaApple : UsdaFood := ⟨"Apples, raw".data, 11, [⟨"Energy".data, 52⟩]⟩

def svcApple : SearchService := mkService [] [usdaApple] []

def appleItem : IndexItem :=
  ⟨"apples, raw".data, "Apples, raw".data, FoodData.usda usdaApple, "usda_foundation".data, []⟩

/-! ### Claim C1 -/

/-- C1 counterexample: for the query "koshari rice" matched exactly
against a dish whose recipe list is empty but whose aggregate totals are
500 kcal / 300 g, `calculate` returns a non-sentinel result (source
"dishes") whose totals are the aggregates while its ingredient list is
empty, so `total_calories ≠ sum(ingredients[].calories)`: the claimed
invariant fails on a result other than the not-found sentinel. -/
theorem C1_counterexample :
    (calculate w0 svcAggDish (Except.ok ()) pqAggDish [] ctx0).source ≠ "not_found".data ∧
    (calculate w0 svcAggDish (Except.ok ()) pqAggDish [] ctx0).ingredients = [] ∧
    (calculate w0 svcAggDish (Except.ok ()) pqAggDish [] ctx0).total_calories = 500 ∧
    ¬ resultInvariant (calculate w0 svcAggDish (Except.ok ()) pqAggDish [] ctx0) := by
  decide

/-- C1 (amended): `total_calories = sum(ingredients[].calories)` and
`weight_g = sum(ingredients[].weight_g)` hold for every CalorieResult
returned by `calculate` except when the best match is a dish whose
aggregate fallback fires (empty recipe or zero summed recipe calories)
and no add/remove modification recomputes the totals afterwards; the
sentinel, ingredient-path, modification-path, multiplier and
target-weight results all satisfy it. -/
theorem C1_invariant_amended (w : Scorer) (svc : SearchService) (log : Except (List Char) Unit)
    (pq : ParsedQuery) (country : List Char) (ctx : Ctx)
    (h : invCondition w svc pq country ctx = true) :
    resultInvariant (calculate w svc log pq country ctx) := by
  unfold calculate
  cases hfi : pq.food_items with
  | nil =>
    rw [calculateBody_eq_nil w svc log pq country ctx hfi]
    exact inv_createNotFound _
  | cons food rest =>
    rw [calculateBody_eq_cons w svc log pq country ctx food rest hfi]
    rw [invCondition_eq_cons w svc pq country ctx food rest hfi] at h
    by_cases hintent : pq.intent = Intent.modify_remove ∨ pq.intent = Intent.modify_add
    · rw [if_pos hintent] at h ⊢
      cases hctx : ctx.lastResult with
      | some blob =>
        exact inv_handleModification w svc pq blob country
      | none =>
        rw [hctx] at h
        have h' : invConditionMain w svc pq food country = true := h
        cases hm : calculateMain w svc log pq food country with
        | error e => exact inv_createNotFound _
        | ok r => exact inv_calculateMain w svc log pq food country h' r hm
    · rw [if_neg hintent] at h ⊢
      have h' : invConditionMain w svc pq food country = true := h
      cases hm : calculateMain w svc log pq food country with
      | error e => exact inv_createNotFound _
      | ok r => exact inv_calculateMain w svc log pq food country h' r hm

/-- C1 witness: an exact ingredient query for "chicken, raw" satisfies
the side condition and the computed 165 kcal / 100 g result satisfies
the invariant. -/
theorem C1_invariant_witness :
    invCondition w0 svcChicken pqChickenExact [] ctx0 = true ∧
    resultInvariant (calculate w0 svcChicken (Except.ok ()) pqChickenExact [] ctx0) :=
  ⟨by decide, C1_invariant_amended w0 svcChicken (Except.ok ()) pqChickenExact [] ctx0 (by decide)⟩

/-! ### Claim C2 -/

theorem normalizeText_false (tr : Translator) (t : List Char) :
    normalizeText tr t false = normalizeText none t false := rfl

theorem clamp01 (c : ℚ) : 0 ≤ ratMax 0 (ratMin 1 c) ∧ ratMax 0 (ratMin 1 c) ≤ 1 := by
  unfold ratMax ratMin
  by_cases h1 : (1 : ℚ) ≤ c
  · rw [if_pos h1]; norm_num
  · rw [if_neg h1]
    by_cases h0 : (0 : ℚ) ≤ c
    · rw [if_pos h0]; exact ⟨h0, by linarith [not_le.mp h1]⟩
    · rw [if_neg h0]; norm_num

theorem parseQuery_tr_indep (tr : Translator) (t : List Char)
    (h : hasArabicScript t = false) : parseQuery tr t = parseQuery none t := by
  simp only [parseQuery, h, Bool.false_eq_true, if_false, normalizeText_false tr]

/-- C2: `_calculate_confidence` computes exactly the claimed clamped
score (base 0.5, +0.2 food item, +0.2 vocabulary hit, +0.1 clear
intent, −0.1 short text, clamped to [0,1]) — for the query "chicken" the
value is 0.9 — but the pydantic `ParsedQuery` model declares no
`confidence` field, so the value passed by `parse_query` is silently
dropped and the produced ParsedQuery does not contain it. -/
theorem C2_confidence_computed_but_dropped :
    (∀ (n : List Char) (fi : List (List Char)) (i : Intent),
        0 ≤ calcConfidence n fi i ∧ calcConfidence n fi i ≤ 1) ∧
    calcConfidence "chicken".data ["chicken".data] Intent.query_food = 9/10 ∧
    parsedQueryFieldNames.contains "confidence".data = false := by
  refine ⟨?_, by decide, by decide⟩
  intro n fi i
  exact clamp01 _

/-! ### Claims C6, C7, C8, C10 -/

/-- The digit set the spec claims for Franco detection ({2,3,5,6,7,8,9});
modelled from the spec's words for comparison with the code's `[2357]`. -/
def specFrancoDigits (t : List Char) : Bool :=
  t.any (fun c => c = '2' || c = '3' || c = '5' || c = '6' || c = '7' || c = '8' || c = '9')

/-- C6 counterexample: "ta8a" has a Latin letter and the digit 8 from the
spec's claimed set, so the claim says it is detected as Franco, but the
code's digit class is `[2357]` and the detected language is "english". -/
theorem C6_counterexample :
    hasArabicScript "ta8a".data = false ∧
    hasLatinLetter "ta8a".data = true ∧
    specFrancoDigits "ta8a".data = true ∧
    (parseQuery none "ta8a".data).language_detected = "english".data ∧
    (parseQuery none "ta8a".data).language_detected ≠ "franco".data := by
  decide

/-- C6 (amended): for every text without Arabic-script characters and any
translator, the detected language is "franco" iff the text contains at
least one Latin letter and at least one digit from the set {2,3,5,7}
(the code's `[2357]` class, not the spec's {2,3,5,6,7,8,9}). -/
theorem C6_franco_iff (tr : Translator) (t : List Char)
    (h : hasArabicScript t = false) :
    ((parseQuery tr t).language_detected = "franco".data ↔
      (hasLatinLetter t = true ∧ hasFrancoDigit t = true)) := by
  have hl : (parseQuery tr t).language_detected = detectLanguage t := by
    simp only [parseQuery, h, Bool.false_eq_true, if_false]
  rw [hl]
  unfold detectLanguage
  rw [h]
  simp only [Bool.false_eq_true, if_false]
  unfold isFrancoArabic
  by_cases hf : (hasLatinLetter t && hasFrancoDigit t) = true
  · rw [if_pos hf]
    rw [Bool.and_eq_true] at hf
    exact ⟨fun _ => hf, fun _ => rfl⟩
  · rw [if_neg hf]
    constructor
    · intro he
      exact absurd he (by decide)
    · rintro ⟨h1, h2⟩
      exact absurd (by simp [h1, h2] : (hasLatinLetter t && hasFrancoDigit t) = true) hf

/-- C6 witness: "sa7a" (Latin letters plus the digit 7) instantiates the
amended equivalence. -/
theorem C6_franco_iff_witness :
    hasArabicScript "sa7a".data = false ∧
    ((parseQuery none "sa7a".data).language_detected = "franco".data ↔
      (hasLatinLetter "sa7a".data = true ∧ hasFrancoDigit "sa7a".data = true)) :=
  ⟨by decide, C6_franco_iff none "sa7a".data (by decide)⟩

/-- C7: for every text without Arabic-script characters the translation
collaborator is never consulted: the parse result is identical for any
two translator implementations (including an absent one). -/
theorem C7_no_translation (t₁ t₂ : Translator) (text : List Char)
    (h : hasArabicScript text = false) : parseQuery t₁ text = parseQuery t₂ text := by
  rw [parseQuery_tr_indep t₁ text h, parseQuery_tr_indep t₂ text h]

def trX : Translator := some (fun _ => Except.ok "xx".data)

/-- C7 witness: "hello" parses identically under a live translator and an
absent one. -/
theorem C7_no_translation_witness :
    hasArabicScript "hello".data = false ∧
    parseQuery trX "hello".data = parseQuery none "hello".data :=
  ⟨by decide, C7_no_translation trX none "hello".data (by decide)⟩

theorem extractFoodItemsCore_len (tl : List Char) : (extractFoodItemsCore tl).length = 1 := by
  unfold extractFoodItemsCore
  split
  · rfl
  · split <;> rfl

theorem extractFoodItems_len (t : List Char) : (extractFoodItems t).length = 1 := by
  unfold extractFoodItems
  exact extractFoodItemsCore_len _

/-- C8: for every input text the Extractor's food-item list is non-empty
(the cleaning fallbacks always leave exactly one element, possibly the
normalized text itself). -/
theorem C8_food_items_never_empty (t : List Char) : extractFoodItems t ≠ [] := by
  have hlen := extractFoodItems_len t
  intro h
  rw [h] at hlen
  simp at hlen

/-- C8 witness: the empty input still yields a non-empty food-item
list. -/
theorem C8_food_items_never_empty_witness : extractFoodItems [] ≠ [] :=
  C8_food_items_never_empty []

/-- C10: for every input text the Extractor returns exactly one food
phrase; on the empty input that phrase is the empty string. -/
theorem C10_exactly_one_item :
    (∀ t, (extractFoodItems t).length = 1) ∧ extractFoodItems [] = [[]] :=
  ⟨extractFoodItems_len, by decide⟩

/-! ### Claim C9 -/

/-- C9: `calculate` is total — for every input it returns the value of
its try-body when that body succeeds, and the canonical not-found
sentinel on any internal failure; the sentinel has zero totals, an empty
ingredient list, source "not_found", confidence 0 and
`is_approximate = true`. -/
theorem C9_never_fatal :
    (∀ (w : Scorer) (svc : SearchService) (log : Except (List Char) Unit) (pq : ParsedQuery)
        (country : List Char) (ctx : Ctx),
      (∃ r, calculateBody w svc log pq country ctx = Except.ok r ∧
            calculate w svc log pq country ctx = r) ∨
      (∃ e, calculateBody w svc log pq country ctx = Except.error e ∧
            calculate w svc log pq country ctx = createNotFoundResult pq.original_text)) ∧
    (∀ q, (createNotFoundResult q).total_calories = 0 ∧ (createNotFoundResult q).weight_g = 0 ∧
      (createNotFoundResult q).ingredients = [] ∧
      (createNotFoundResult q).source = "not_found".data ∧
      (createNotFoundResult q).confidence = 0 ∧
      (createNotFoundResult q).is_approximate = true) := by
  constructor
  · intro w svc log pq country ctx
    cases hb : calculateBody w svc log pq country ctx with
    | ok r => exact Or.inl ⟨r, rfl, by unfold calculate; rw [hb]⟩
    | error e => exact Or.inr ⟨e, rfl, by unfold calculate; rw [hb]⟩
  · intro q
    exact ⟨rfl, rfl, rfl, rfl, rfl, rfl⟩

/-! ### Claim C4 -/

/-- The exact-ingredient condition of search step 1: a non-dish index
entry whose name equals the lowercased query. -/
def exactIngredientPred (qlow : List Char) (it : IndexItem) : Bool :=
  !decide (it.source = "dishes".data) && decide (it.name = qlow)

theorem exactFirst_inr (qlow clow : List Char) (idx : List IndexItem) (item : IndexItem)
    (hdish : ∀ it ∈ idx, it.source = "dishes".data → it.name = qlow →
      ¬(clow = [] ∨ it.country = clow))
    (hfind : idx.find? (exactIngredientPred qlow) = some item) :
    exactFirst qlow clow idx = some (Sum.inr item) := by
  induction idx with
  | nil => simp at hfind
  | cons it rest ih =>
    unfold exactFirst
    by_cases hname : qlow = it.name
    · rw [if_pos hname]
      by_cases hsrc : it.source = "dishes".data
      · rw [if_pos hsrc]
        have hno := hdish it (List.mem_cons_self it rest) hsrc hname.symm
        have hcond : ¬((clow.isEmpty || decide (it.country = clow)) = true) := by
          simp only [Bool.or_eq_true, List.isEmpty_iff, decide_eq_true_eq]
          exact hno
        rw [if_neg hcond]
        refine ih (fun it' hm hs hn => hdish it' (List.mem_cons_of_mem it hm) hs hn) ?_
        have hpred : ¬(exactIngredientPred qlow it = true) := by
          simp [exactIngredientPred, hsrc]
        rwa [List.find?_cons_of_neg _ hpred] at hfind
      · rw [if_neg hsrc]
        have hpred : exactIngredientPred qlow it = true := by
          simp [exactIngredientPred, hsrc, hname.symm]
        rw [List.find?_cons_of_pos _ hpred] at hfind
        cases hfind
        rfl
    · rw [if_neg hname]
      have hpred : ¬(exactIngredientPred qlow it = true) := by
        simp only [exactIngredientPred, Bool.and_eq_true, decide_eq_true_eq, not_and,
          Bool.not_eq_true', decide_eq_false_iff_not]
        intro _ he
        exact hname he.symm
      refine ih (fun it' hm hs hn => hdish it' (List.mem_cons_of_mem it hm) hs hn) ?_
      rwa [List.find?_cons_of_neg _ hpred] at hfind

/-- C4 (amended): if the lowercased query equals the name of an
ingredient entry and no dish entry of that name passes the country
filter, `search` returns immediately with the first such ingredient
entry as its only candidate, at score 1.0 and with its ingredient
source.  (A same-named dish passing the country filter shadows the
ingredient: step 1 breaks at the dish, see the counterexample.) -/
theorem C4_exact_ingredient (w : Scorer) (svc : SearchService) (query country : List Char)
    (topK : Nat) (item : IndexItem)
    (hq : pyStrip (pyLower query) ≠ [])
    (hdish : ∀ it ∈ svc.search_index, it.source = "dishes".data →
      it.name = pyStrip (pyLower query) →
      ¬(pyStrip (pyLower country) = [] ∨ it.country = pyStrip (pyLower country)))
    (hfind : svc.search_index.find? (exactIngredientPred (pyStrip (pyLower query))) = some item) :
    search w svc query country topK = [(item.data, item.source, 1)] := by
  unfold search
  rw [if_neg (by simpa [List.isEmpty_iff] using hq)]
  rw [exactFirst_inr (pyStrip (pyLower query)) (pyStrip (pyLower country))
    svc.search_index item hdish hfind]

/-- C4 witness: the exact ingredient query "Apples, raw" against a
corpus with no dishes returns that entry at score 1.0, ingredient
source. -/
theorem C4_exact_ingredient_witness :
    pyStrip (pyLower "Apples, raw".data) ≠ [] ∧
    search w0 svcApple "Apples, raw".data [] 5 =
      [(FoodData.usda usdaApple, "usda_foundation".data, 1)] :=
  ⟨by decide,
   C4_exact_ingredient w0 svcApple "Apples, raw".data [] 5 appleItem
     (by decide) (by decide) (by decide)⟩

/-- C4 counterexample: the corpus holds both a dish and a USDA
ingredient named "Butter bread".  The query "Butter bread" equals the
ingredient entry's name, yet `search` returns the dish (source
"dishes") because the step-1 scan breaks at the same-named dish passing
the empty country filter — contradicting "regardless of any dish entry
sharing the same name". -/
theorem C4_counterexample :
    (svcSharedName.search_index.find?
        (exactIngredientPred (pyStrip (pyLower "Butter bread".data)))).isSome = true ∧
    search w0 svcSharedName "Butter bread".data [] 5 =
      [(FoodData.dish sharedNameDish, "dishes".data, 1)] ∧
    ¬∃ t, search w0 svcSharedName "Butter bread".data [] 5 = [t] ∧
      (t.2.1 = "usda_foundation".data ∨ t.2.1 = "usda_sr_legacy".data) := by
  refine ⟨by decide, by decide, ?_⟩
  rintro ⟨t, ht, hsrc⟩
  rw [(by decide : search w0 svcSharedName "Butter bread".data [] 5 =
    [(FoodData.dish sharedNameDish, "dishes".data, 1)])] at ht
  have hteq : t = (FoodData.dish sharedNameDish, "dishes".data, 1) := by
    injection ht with h1 _
    exact h1.symm
  subst hteq
  rcases hsrc with h | h
  · exact absurd h (by decide)
  · exact absurd h (by decide)

/-! ### Claim C5 -/

theorem step5ScoreOf_shape (qlow : List Char) (it : IndexItem) (p : IndexItem × ℚ)
    (h : step5ScoreOf qlow it = some p) : p.2 = 19/20 ∨ p.2 = 17/20 := by
  unfold step5ScoreOf at h
  split at h
  · cases h
  · split at h
    · cases h; exact Or.inl rfl
    · split at h
      · cases h; exact Or.inr rfl
      · cases h

/-- C5 (amended): the step-5 word-match stage scores entries only 0.95
(first token equals the whole query) or 0.85 (the whole query occurs as
a token); there is no 0.90 "all query tokens contained" rule, so a
multi-word query whose tokens all appear in an entry's name receives no
word match there and only the approximate fallback can produce a
candidate. -/
theorem C5_step5_scores_only (items : List IndexItem) (qlow : List Char)
    (it : IndexItem) (s : ℚ) (hmem : (it, s) ∈ step5WordMatches items qlow) :
    s = 19/20 ∨ s = 17/20 := by
  unfold step5WordMatches at hmem
  rw [List.mem_filterMap] at hmem
  obtain ⟨a, _, ha⟩ := hmem
  exact step5ScoreOf_shape qlow a (it, s) ha

/-- C5 witness: the single-word query "chicken" word-matches the entry
"Chicken, raw" at exactly 0.95 in step 5. -/
theorem C5_step5_scores_only_witness :
    ((chickenItem, (19/20 : ℚ)) ∈ step5WordMatches (usdaIndex svcChicken) "chicken".data) ∧
    ((19/20 : ℚ) = 19/20 ∨ (19/20 : ℚ) = 17/20) :=
  ⟨by decide,
   C5_step5_scores_only (usdaIndex svcChicken) "chicken".data chickenItem (19/20) (by decide)⟩

/-- C5 counterexample: every token of the multi-word query "chicken raw"
appears among the tokens of the ingredient entry "Chicken, raw" (not an
exact full-name match), yet the step-5 word-match list is empty and,
with a scorer under the fuzzy threshold, the entry is not a candidate at
all — there is no 0.90 rule. -/
theorem C5_counterexample :
    (pySplitWs "chicken raw".data).all
        (fun tok => (normalizeItemName chickenItem.name).contains tok) = true ∧
    pyStrip (pyLower "chicken raw".data) ≠ pyLower "Chicken, raw".data ∧
    step5WordMatches (usdaIndex svcChicken) "chicken raw".data = [] ∧
    search w0 svcChicken "chicken raw".data [] 5 = [] := by
  decide

/-! ### Claim C3 -/

/-- The ParsedQuery the engine actually produces for "200g chicken": the
Franco digit substitution (triggered because the text contains the digit
2) rewrites "200g" to "aa00g", and the weight regex then matches "00g",
extracting weight 0. -/
def pq200g : ParsedQuery :=
  ⟨Intent.query_food, ["aa00g chicken".data], ⟨[], []⟩, ⟨some 0, none⟩,
   "franco".data, "200g chicken".data, "aa00g chicken".data⟩

set_option maxHeartbeats 2000000 in
theorem parse200g : parseQuery none "200g chicken".data = pq200g := by decide

theorem step34_chicken (w : Scorer) : step34 w svcChicken "aa00g chicken".data [] = [] := rfl

theorem step5_chicken (w : Scorer) :
    step5 w svcChicken "aa00g chicken".data =
      (if 60 ≤ w "aa00g chicken".data "chicken, raw".data then
        [(FoodData.usda chickenRaw, "usda_foundation".data,
          w "aa00g chicken".data "chicken, raw".data / 100)]
      else []) := by
  unfold step5
  rw [show step5WordMatches (usdaIndex svcChicken) "aa00g chicken".data = [] from by decide]
  rw [show usdaNames svcChicken = ["chicken, raw".data] from by decide]
  rw [show usdaIndex svcChicken = [chickenItem] from by decide]
  unfold processExtract
  simp only [List.map_cons, List.map_nil, sortDesc, insertDesc, List.take, List.filter_cons,
    List.filter_nil, List.isEmpty_nil, if_true, List.filterMap]
  simp only [List.isEmpty_cons, Bool.false_eq_true, if_false, List.nil_append]
  by_cases h : (60:ℚ) ≤ w "aa00g chicken".data "chicken, raw".data
  · rw [decide_eq_true h, if_pos h]
    rfl
  · rw [decide_eq_false h, if_neg h]
    rfl

theorem searchChicken_aa00g (w : Scorer) :
    search w svcChicken "aa00g chicken".data [] 5 =
      (if 60 ≤ w "aa00g chicken".data "chicken, raw".data then
        [(FoodData.usda chickenRaw, "usda_foundation".data,
          w "aa00g chicken".data "chicken, raw".data / 100)]
      else []) := by
  unfold search
  rw [show pyStrip (pyLower "aa00g chicken".data) = "aa00g chicken".data from by decide,
      show pyStrip (pyLower ([] : List Char)) = [] from by decide]
  dsimp only
  rw [show exactFirst "aa00g chicken".data [] svcChicken.search_index = none from by decide]
  dsimp only
  simp only [List.isEmpty_cons, Bool.false_eq_true, if_false]
  rw [show (decide ((pySplitWs "aa00g chicken".data).length = 1)) = false from by decide]
  unfold searchRest
  dsimp only
  rw [step34_chicken w, step5_chicken w]
  by_cases h : (60:ℚ) ≤ w "aa00g chicken".data "chicken, raw".data
  · rw [if_pos h]
    rfl
  · rw [if_neg h]
    rfl

/-- C3: the claim fails on the code — for ANY fuzzy scorer, translator
and logger outcome, processing "200g chicken" end-to-end against the
corpus containing "Chicken, raw" (165 kcal per 100 g) yields
`total_calories = 0` and `weight_g = 0`, not 330 and 200: Franco digit
substitution rewrites the quantity "200g" to "aa00g" during
normalization, so quantity extraction sees "00g" and produces weight 0
(and with a scorer below the fuzzy threshold the result is the
not-found sentinel, also all-zero). -/
theorem C3_two_hundred_gram (w : Scorer) (tr : Translator) (log : Except (List Char) Unit) :
    (calculate w svcChicken log (parseQuery tr "200g chicken".data) [] ctx0).total_calories = 0 ∧
    (calculate w svcChicken log (parseQuery tr "200g chicken".data) [] ctx0).weight_g = 0 := by
  rw [parseQuery_tr_indep tr "200g chicken".data (by decide), parse200g]
  have hb : calculateBody w svcChicken log pq200g [] ctx0 =
      calculateMain w svcChicken log pq200g "aa00g chicken".data [] := by
    rw [calculateBody_eq_cons w svcChicken log pq200g [] ctx0 "aa00g chicken".data [] rfl]
    rw [if_neg (by decide :
      ¬(pq200g.intent = Intent.modify_remove ∨ pq200g.intent = Intent.modify_add))]
  rcases le_or_lt 60 (w "aa00g chicken".data "chicken, raw".data) with h | h
  · have hs : search w svcChicken "aa00g chicken".data [] 5 =
        [(FoodData.usda chickenRaw, "usda_foundation".data,
          w "aa00g chicken".data "chicken, raw".data / 100)] := by
      rw [searchChicken_aa00g w, if_pos h]
    have hm := calculateMain_eq_of_cons w svcChicken log pq200g "aa00g chicken".data []
      (FoodData.usda chickenRaw) "usda_foundation".data
      (w "aa00g chicken".data "chicken, raw".data / 100) [] hs
    unfold calculate
    rw [hb, hm]
    exact ⟨rfl, rfl⟩
  · have hs : search w svcChicken "aa00g chicken".data [] 5 = [] := by
      rw [searchChicken_aa00g w, if_neg (not_le.mpr h)]
    unfold calculate
    rw [hb, calculateMain_eq_of_nil w svcChicken log pq200g "aa00g chicken".data [] hs]
    cases log with
    | ok u => exact ⟨rfl, rfl⟩
    | error e => exact ⟨rfl, rfl⟩

end CalChat

